import Mathlib

/-!
Shallow embedding of the Sawyer robot adapter
(`garage/contrib/ros/robots/sawyer.py`) and proofs about its
command/observation translation, action-space construction, safety
delegation and reset behaviour.

Modelling conventions:
* Python floats are modelled as rationals (`ℚ`); no claim here depends on
  floating-point rounding.
* Python dicts that the code iterates in insertion order are modelled as
  association lists `List (String × ℚ)` with distinct keys.
* Fallible code paths return `Except PyError α`; an `Except.error` result
  means the Python code raised before any SDK write was issued.
* Writes to the vendor SDK (limb position/velocity/torque commands, gripper
  commands, ROS sleeps) are collected in a `List Cmd` trace.
-/

/-- Runtime errors the translated Python code can raise. -/
inductive PyError where
  | valueError (msg : String)
  | keyError (key : String)
  | unboundLocalError (name : String)
  | indexError
  | broadcastError
  deriving DecidableEq

/-- Outgoing effects on the vendor SDK / ROS, recorded as a trace. -/
inductive Cmd where
  | moveToJointPositions (positions : List (String × ℚ)) (timeout : Option ℚ)
  | setJointPositions (cmds : List (String × ℚ))
  | setJointVelocities (cmds : List (String × ℚ))
  | setJointTorques (cmds : List (String × ℚ))
  | gripperOpen
  | gripperSetPosition (p : ℚ)
  | rosSleep (t : ℚ)
  deriving DecidableEq

/-- The one-time `/robot/joint_limits` message read at construction:
parallel lists of joint names and their velocity / effort limits. -/
structure JointLimitsMsg where
  joint_names : List String
  velocity : List ℚ
  effort : List ℚ
  deriving DecidableEq

/-- Cartesian triple (position, linear/angular velocity, force, torque). -/
structure Point3 where
  x : ℚ
  y : ℚ
  z : ℚ
  deriving DecidableEq

/-- Orientation quaternion as reported by the SDK. -/
structure Quat where
  x : ℚ
  y : ℚ
  z : ℚ
  w : ℚ
  deriving DecidableEq

/-- End-effector pose as returned by `limb.endpoint_pose()`. -/
structure EndpointPose where
  position : Point3
  orientation : Quat
  deriving DecidableEq

/-- End-effector velocity as returned by `limb.endpoint_velocity()`. -/
structure EndpointVelocity where
  linear : Point3
  angular : Point3
  deriving DecidableEq

/-- End-effector effort as returned by `limb.endpoint_effort()`. -/
structure EndpointEffort where
  force : Point3
  torque : Point3
  deriving DecidableEq

/-- Read-only snapshot of what the vendor limb handle reports: the three
joint-keyed dicts (iterated in insertion order) and the endpoint state. -/
structure LimbState where
  joint_angles : List (String × ℚ)
  joint_velocities : List (String × ℚ)
  joint_efforts : List (String × ℚ)
  endpoint_pose : EndpointPose
  endpoint_velocity : EndpointVelocity
  endpoint_effort : EndpointEffort
  deriving DecidableEq

/-- Adapter state stored on `self` by `Sawyer.__init__`. -/
structure Sawyer where
  initial_joint_pos : List (String × ℚ)
  control_mode : String
  used_joints : List String
  joint_limits : JointLimitsMsg
  moveit_group : String
  deriving DecidableEq

/-- Translation of `Sawyer.__init__`: stores the arguments, builds
`_used_joints` by iterating the `initial_joint_pos` dict keys in order, and
records the joint-limits message received at construction.  Construction
performs no validation of `control_mode`. -/
def Sawyer.mk0 (initial_joint_pos : List (String × ℚ)) (moveit_group : String)
    (control_mode : String) (joint_limits : JointLimitsMsg) : Sawyer :=
  { initial_joint_pos := initial_joint_pos
    control_mode := control_mode
    used_joints := initial_joint_pos.map Prod.fst
    joint_limits := joint_limits
    moveit_group := moveit_group }

/-- Python `list.index`: position of the first occurrence, if any. -/
def pyListIndex : List String → String → Option Nat
  | [], _ => none
  | x :: xs, j => if x = j then some 0 else (pyListIndex xs j).map (· + 1)

/-- Python slice `l[i:i+1]`: one element when `i` is in range, else empty
(slicing never raises). -/
def slice1 (l : List ℚ) (i : Nat) : List ℚ :=
  (l.drop i).take 1

/-- The pair of bound vectors of a `gym.spaces.Box`. -/
structure Box where
  low : List ℚ
  high : List ℚ
  deriving DecidableEq

/-- Numpy `np.maximum` on scalars. -/
def maxQ (a b : ℚ) : ℚ :=
  if a ≤ b then b else a

/-- Numpy `np.minimum` on scalars. -/
def minQ (a b : ℚ) : ℚ :=
  if a ≤ b then a else b

/-- Scalar `np.clip(x, lo, hi) = np.minimum(np.maximum(x, lo), hi)`. -/
def clipQ (x lo hi : ℚ) : ℚ :=
  minQ (maxQ x lo) hi

/-- Loop body of the `action_space` property.  The two accumulators model
the Python locals `lower_bounds` / `upper_bounds`, which the source never
initialises: `none` means the local is still unbound, so referencing it
raises `UnboundLocalError`.  Faithful to the source:
* each iteration first runs `self._joint_limits.joint_names.index(joint)`
  (raising `ValueError` when the joint is absent);
* position mode returns the static `Box(full(7, -0.02), full(7, 0.02))`
  from the first iteration;
* velocity / effort modes append `±limit[idx:idx+1]` (velocity scaled by
  0.1) to the accumulators — which are unbound on the first iteration;
* an unrecognised mode raises `ValueError` naming the mode;
* after the loop the gripper bounds `[0]` / `[100]` are appended to the
  (possibly unbound) accumulators. -/
def actionSpaceGo (s : Sawyer) :
    List String → Option (List ℚ) → Option (List ℚ) → Except PyError Box
  | [], some lb, some ub => .ok ⟨lb ++ [0], ub ++ [100]⟩
  | [], _, _ => .error (.unboundLocalError "lower_bounds")
  | joint :: rest, lb, ub =>
    match pyListIndex s.joint_limits.joint_names joint with
    | none => .error (.valueError (joint ++ " is not in list"))
    | some idx =>
      if s.control_mode = "position" then
        .ok ⟨List.replicate 7 (-(1/50 : ℚ)), List.replicate 7 (1/50 : ℚ)⟩
      else if s.control_mode = "velocity" then
        match lb, ub with
        | some lbv, some ubv =>
          actionSpaceGo s rest
            (some (lbv ++ (slice1 s.joint_limits.velocity idx).map (fun v => -(v * (1/10)))))
            (some (ubv ++ (slice1 s.joint_limits.velocity idx).map (fun v => v * (1/10))))
        | _, _ => .error (.unboundLocalError "lower_bounds")
      else if s.control_mode = "effort" then
        match lb, ub with
        | some lbv, some ubv =>
          actionSpaceGo s rest
            (some (lbv ++ (slice1 s.joint_limits.effort idx).map (fun v => -v)))
            (some (ubv ++ (slice1 s.joint_limits.effort idx).map (fun v => v)))
        | _, _ => .error (.unboundLocalError "lower_bounds")
      else
        .error (.valueError ("Control mode " ++ s.control_mode ++ " is not known!"))

/-- Translation of the `action_space` property. -/
def actionSpace (s : Sawyer) : Except PyError Box :=
  actionSpaceGo s s.used_joints none none

/-- Vector `np.clip(commands, low, high)` with numpy broadcasting: equal
lengths clip elementwise, a singleton broadcasts over the bounds, any other
shape mismatch raises. -/
def npClip (xs lo hi : List ℚ) : Except PyError (List ℚ) :=
  if xs.length = lo.length then
    .ok (List.zipWith (fun x lh => clipQ x lh.1 lh.2) xs (lo.zip hi))
  else if xs.length = 1 then
    .ok ((lo.zip hi).map (fun lh => clipQ (xs.headD 0) lh.1 lh.2))
  else
    .error .broadcastError

/-- The `joint_commands` loop of `send_command`: pairs each used joint with
`commands[i]`, raising `IndexError` when the clipped vector is too short. -/
def buildJointCommands (clipped : List ℚ) : List String → Nat → Except PyError (List (String × ℚ))
  | [], _ => .ok []
  | j :: rest, i =>
    match clipped[i]? with
    | none => .error .indexError
    | some v => (buildJointCommands clipped rest (i + 1)).map (fun t => (j, v) :: t)

/-- Python dict lookup on an association list (keys are distinct). -/
def alookup : List (String × ℚ) → String → Option ℚ
  | [], _ => none
  | (k, v) :: rest, j => if k = j then some v else alookup rest j

/-- Python `int(j[-1])`: last character of the joint name parsed as a
digit; an empty name raises `IndexError`, a non-digit raises `ValueError`. -/
def lastDigit (j : String) : Except PyError Nat :=
  match j.toList.getLast? with
  | none => .error .indexError
  | some c =>
    if c.isDigit then .ok (c.toNat - 48)
    else .error (.valueError ("invalid literal for int: " ++ j))

/-- Numpy array indexing `l[i]`, raising `IndexError` out of range. -/
def nthQ (l : List ℚ) (i : Nat) : Except PyError ℚ :=
  match l[i]? with
  | none => .error .indexError
  | some v => .ok v

/-- Static lower bounds of `joint_position_space`. -/
def jointPositionSpaceLow : List ℚ :=
  [-30503/10000, -38095/10000, -30426/10000, -30439/10000,
   -29761/10000, -29761/10000, -47124/10000]

/-- Static upper bounds of `joint_position_space`. -/
def jointPositionSpaceHigh : List ℚ :=
  [30503/10000, 22736/10000, 30426/10000, 30439/10000,
   29761/10000, 29761/10000, 47124/10000]

/-- Python dict subscript `jpos[j]`: the value when present, `KeyError`
otherwise. -/
def dictLookup (jpos : List (String × ℚ)) (j : String) : Except PyError ℚ :=
  match alookup jpos j with
  | none => .error (.keyError j)
  | some v => .ok v

/-- Loop of `_send_incremental_position_command`: iterates over the joints
the limb currently reports (NOT over the controlled set), and for each limb
joint `(j, p)` computes `int(j[-1])`, looks `j` up in the commanded map
(`KeyError` when absent), and clips `p + jpos[j]` to the static per-joint
bounds.  The SDK write happens only after the whole loop succeeds, so any
error yields no command at all. -/
def sendIncrementalGo (jpos : List (String × ℚ)) :
    List (String × ℚ) → Except PyError (List (String × ℚ))
  | [] => .ok []
  | (j, p) :: rest => do
    let d ← lastDigit j
    let v ← dictLookup jpos j
    let lo ← nthQ jointPositionSpaceLow d
    let hi ← nthQ jointPositionSpaceHigh d
    let t ← sendIncrementalGo jpos rest
    Except.ok ((j, clipQ (p + v) lo hi) :: t)

/-- Translation of `Sawyer.send_command`: computes the action space (which
may raise), clips the incoming vector to its bounds, maps the clipped
values onto the used joints in order, then dispatches on the control mode.
The commented-out gripper write in the source is absent, so no branch
emits a gripper command. -/
def sendCommand (s : Sawyer) (limb : LimbState) (commands : List ℚ) :
    Except PyError (List Cmd) := do
  let asp ← actionSpace s
  let clipped ← npClip commands asp.low asp.high
  let jc ← buildJointCommands clipped s.used_joints 0
  if s.control_mode = "position" then
    let out ← sendIncrementalGo jc limb.joint_angles
    Except.ok [Cmd.setJointPositions out]
  else if s.control_mode = "velocity" then
    Except.ok [Cmd.setJointVelocities jc]
  else if s.control_mode = "effort" then
    Except.ok [Cmd.setJointTorques jc]
  else
    Except.ok []

/-- Components of a `Point3` in numpy order. -/
def Point3.toList (p : Point3) : List ℚ :=
  [p.x, p.y, p.z]

/-- Components of a `Quat` in numpy order. -/
def Quat.toList (q : Quat) : List ℚ :=
  [q.x, q.y, q.z, q.w]

/-- Translation of `Sawyer.get_observation`: fixed-order concatenation of
endpoint position, orientation, linear and angular velocity, force,
torque, then the values of the limb's joint-angle, joint-velocity and
joint-effort dicts. -/
def getObservation (limb : LimbState) : List ℚ :=
  limb.endpoint_pose.position.toList ++ limb.endpoint_pose.orientation.toList ++
  limb.endpoint_velocity.linear.toList ++ limb.endpoint_velocity.angular.toList ++
  limb.endpoint_effort.force.toList ++ limb.endpoint_effort.torque.toList ++
  limb.joint_angles.map Prod.snd ++ limb.joint_velocities.map Prod.snd ++
  limb.joint_efforts.map Prod.snd

/-- The `moveit_msgs.msg.RobotState` request: parallel joint-name and
joint-position lists. -/
structure RobotState where
  name : List String
  position : List ℚ
  deriving DecidableEq

/-- Verdict structure returned by the external state-validity service. -/
structure ValidityResult where
  valid : Bool
  deriving DecidableEq

/-- The build-up loop shared by `safety_check` and `safety_predict`:
appends each joint name and position to the request in iteration order. -/
def buildRobotState : List (String × ℚ) → RobotState → RobotState
  | [], rs => rs
  | (j, a) :: rest, rs => buildRobotState rest ⟨rs.name ++ [j], rs.position ++ [a]⟩

/-- Translation of `Sawyer.safety_check`: packages the limb's current
joint angles into a robot state, queries the validity service with the
configured group and returns the verdict's `valid` field. -/
def safetyCheck (sv : RobotState → String → ValidityResult) (s : Sawyer)
    (limb : LimbState) : Bool :=
  (sv (buildRobotState limb.joint_angles ⟨[], []⟩) s.moveit_group).valid

/-- Translation of `Sawyer.safety_predict`: same as `safetyCheck` but on a
hypothetical joint-angle map. -/
def safetyPredict (sv : RobotState → String → ValidityResult) (s : Sawyer)
    (joint_angles : List (String × ℚ)) : Bool :=
  (sv (buildRobotState joint_angles ⟨[], []⟩) s.moveit_group).valid

/-- Translation of `Sawyer._move_to_start_position`: on shutdown return
immediately with no effect; otherwise move to the initial joint positions
with the 5-second timeout, open the gripper and sleep 0.01 s. -/
def moveToStartPosition (s : Sawyer) (shutdown : Bool) : List Cmd :=
  if shutdown then []
  else
    [Cmd.moveToJointPositions s.initial_joint_pos (some 5),
     Cmd.gripperOpen, Cmd.rosSleep (1/100)]

/-- Translation of `Sawyer.reset`. -/
def reset (s : Sawyer) (shutdown : Bool) : List Cmd :=
  moveToStartPosition s shutdown

/-- Whether a trace element is a gripper command. -/
def isGripperCmd : Cmd → Bool
  | Cmd.gripperOpen => true
  | Cmd.gripperSetPosition _ => true
  | _ => false

/-- Static action-space box returned in position mode:
`Box(np.full(7, -0.02), np.full(7, 0.02))`. -/
def positionModeBox : Box :=
  ⟨List.replicate 7 (-(1/50 : ℚ)), List.replicate 7 (1/50 : ℚ)⟩

/-- Total version of `lastDigit`, defaulting to 0 on failure; used only to
state results about runs that are known to succeed. -/
def lastDigitD (j : String) : Nat :=
  match lastDigit j with
  | .ok d => d
  | .error _ => 0

/-- Per-joint absolute target the position path actually computes for a
limb joint `(j, p)` given the commanded-delta map `jpos`:
`clip(p + jpos[j], static_low[int(j[-1])], static_high[int(j[-1])])`,
with total lookups (meaningful on runs known to succeed). -/
def posTarget (jpos : List (String × ℚ)) (jp : String × ℚ) : String × ℚ :=
  (jp.1, clipQ (jp.2 + (alookup jpos jp.1).getD 0)
    ((jointPositionSpaceLow[lastDigitD jp.1]?).getD 0)
    ((jointPositionSpaceHigh[lastDigitD jp.1]?).getD 0))

/-- Modelled from the spec (claims C1 sources) purely for comparison with
the source translation: the spec asserts the position-path target is
`clip(current + commanded_delta * 0.1, lo, hi)`, i.e. an extra 0.1 damping
factor inside the position path. -/
def specClaimPositionTarget (current delta lo hi : ℚ) : ℚ :=
  clipQ (current + delta * (1/10)) lo hi

/-- Joint names of the Sawyer arm style: nonempty, ending in a digit below
7 (the arm's joints are right_j0 … right_j6), so that `int(j[-1])` parses
and indexes the static 7-entry bounds. -/
def validJointName (j : String) : Bool :=
  match j.toList.getLast? with
  | none => false
  | some c => c.isDigit && decide (c.toNat - 48 < 7)

/-- Operation `reset` paired with the adapter state it leaves behind; the
method body assigns no attribute of `self`. -/
def resetFull (s : Sawyer) (shutdown : Bool) : Sawyer × List Cmd :=
  (s, moveToStartPosition s shutdown)

/-- Operation `get_observation` paired with the adapter state it leaves
behind. -/
def getObservationFull (s : Sawyer) (limb : LimbState) : Sawyer × List ℚ :=
  (s, getObservation limb)

/-- Operation `send_command` paired with the adapter state it leaves
behind. -/
def sendCommandFull (s : Sawyer) (limb : LimbState) (commands : List ℚ) :
    Sawyer × Except PyError (List Cmd) :=
  (s, sendCommand s limb commands)

/-- Operation `safety_check` paired with the adapter state it leaves
behind. -/
def safetyCheckFull (sv : RobotState → String → ValidityResult) (s : Sawyer)
    (limb : LimbState) : Sawyer × Bool :=
  (s, safetyCheck sv s limb)

/-- Operation `safety_predict` paired with the adapter state it leaves
behind. -/
def safetyPredictFull (sv : RobotState → String → ValidityResult) (s : Sawyer)
    (joint_angles : List (String × ℚ)) : Sawyer × Bool :=
  (s, safetyPredict sv s joint_angles)

/-- Property `action_space` paired with the adapter state it leaves
behind. -/
def actionSpaceFull (s : Sawyer) : Sawyer × Except PyError Box :=
  (s, actionSpace s)

/-- Property `observation_space` paired with the adapter state it leaves
behind; its box is `(-inf, inf)` with the observation's shape, so only the
shape is modelled. -/
def observationSpaceFull (s : Sawyer) (limb : LimbState) : Sawyer × Nat :=
  (s, (getObservation limb).length)

/-- Property `joint_position_space` paired with the adapter state it
leaves behind. -/
def jointPositionSpaceFull (s : Sawyer) : Sawyer × Box :=
  (s, ⟨jointPositionSpaceLow, jointPositionSpaceHigh⟩)

/-- Joint-limits message for the concrete examples: one joint with a
velocity limit of 2 and an effort limit of 5. -/
def exampleLimits : JointLimitsMsg :=
  ⟨["right_j0"], [2], [5]⟩

/-- Position-mode adapter controlling the single joint right_j0. -/
def examplePosSawyer : Sawyer :=
  Sawyer.mk0 [("right_j0", 0)] "right_arm" "position" exampleLimits

/-- Velocity-mode adapter controlling the single joint right_j0. -/
def exampleVelSawyer : Sawyer :=
  Sawyer.mk0 [("right_j0", 0)] "right_arm" "velocity" exampleLimits

/-- Effort-mode adapter controlling the single joint right_j0. -/
def exampleEffSawyer : Sawyer :=
  Sawyer.mk0 [("right_j0", 0)] "right_arm" "effort" exampleLimits

/-- Origin point used by the example limb snapshots. -/
def examplePoint : Point3 :=
  ⟨0, 0, 0⟩

/-- Limb snapshot reporting exactly the one controlled joint right_j0 at
angle 0. -/
def exampleLimb : LimbState :=
  ⟨[("right_j0", 0)], [("right_j0", 0)], [("right_j0", 0)],
   ⟨examplePoint, ⟨0, 0, 0, 1⟩⟩, ⟨examplePoint, examplePoint⟩,
   ⟨examplePoint, examplePoint⟩⟩

/-- Limb snapshot reporting two joints (right_j0, right_j1) while the
example adapters control only right_j0. -/
def exampleLimb2 : LimbState :=
  ⟨[("right_j0", 0), ("right_j1", 0)], [("right_j0", 0), ("right_j1", 0)],
   [("right_j0", 0), ("right_j1", 0)],
   ⟨examplePoint, ⟨0, 0, 0, 1⟩⟩, ⟨examplePoint, examplePoint⟩,
   ⟨examplePoint, examplePoint⟩⟩

/-- Adapter constructed with the unsupported control mode string
"torque"; construction itself performs no validation. -/
def exampleBadSawyer : Sawyer :=
  Sawyer.mk0 [("right_j0", 0)] "right_arm" "torque" exampleLimits

deriving instance DecidableEq for Except

theorem exceptBind_ok {α β : Type} {x : Except PyError α} {f : α → Except PyError β}
    {b : β} (h : x >>= f = Except.ok b) : ∃ a, x = Except.ok a ∧ f a = Except.ok b := by
  cases x with
  | error e => exact Except.noConfusion h
  | ok a => exact ⟨a, rfl, h⟩

theorem exceptBind_ok_left {α β : Type} (a : α) (f : α → Except PyError β) :
    (Except.ok a >>= f) = f a := rfl

theorem exceptBind_error_left {α β : Type} (e : PyError) (f : α → Except PyError β) :
    ((Except.error e : Except PyError α) >>= f) = Except.error e := rfl

theorem exceptMap_ok {α β : Type} (a : α) (f : α → β) :
    (Except.ok a : Except PyError α).map f = Except.ok (f a) := rfl

theorem exceptMap_error {α β : Type} (e : PyError) (f : α → β) :
    (Except.error e : Except PyError α).map f = Except.error e := rfl

theorem pyListIndex_of_mem {l : List String} {j : String} (h : j ∈ l) :
    ∃ k, pyListIndex l j = some k := by
  induction l with
  | nil => cases h
  | cons x xs ih =>
    by_cases hx : x = j
    · exact ⟨0, by simp [pyListIndex, hx]⟩
    · have hj : j ∈ xs := by
        rcases List.mem_cons.mp h with h1 | h1
        · exact absurd h1.symm hx
        · exact h1
      obtain ⟨k, hk⟩ := ih hj
      exact ⟨k + 1, by simp [pyListIndex, hx, hk]⟩

theorem actionSpace_position_ok {s : Sawyer} {b : Box}
    (hm : s.control_mode = "position") (h : actionSpace s = Except.ok b) :
    b = positionModeBox := by
  unfold actionSpace at h
  cases hu : s.used_joints with
  | nil => rw [hu] at h; exact Except.noConfusion h
  | cons j rest =>
    rw [hu] at h
    cases hpi : pyListIndex s.joint_limits.joint_names j with
    | none => simp [actionSpaceGo, hpi] at h
    | some k =>
      simp [actionSpaceGo, hpi, hm, positionModeBox] at h
      simpa [positionModeBox] using h.symm

theorem actionSpace_position {s : Sawyer} (hm : s.control_mode = "position")
    (hne : s.used_joints ≠ [])
    (hmem : ∀ j ∈ s.used_joints, j ∈ s.joint_limits.joint_names) :
    actionSpace s = Except.ok positionModeBox := by
  obtain ⟨j, rest, hj⟩ := List.exists_cons_of_ne_nil hne
  obtain ⟨k, hk⟩ := pyListIndex_of_mem (hmem j (by rw [hj]; exact List.mem_cons_self j rest))
  unfold actionSpace
  rw [hj]
  simp [actionSpaceGo, hk, hm, positionModeBox]

theorem alookup_eq_none_iff {l : List (String × ℚ)} {j : String} :
    alookup l j = none ↔ j ∉ l.map Prod.fst := by
  induction l with
  | nil => simp [alookup]
  | cons kv rest ih =>
    obtain ⟨k, v⟩ := kv
    by_cases hk : k = j
    · subst hk
      simp [alookup]
    · simp [alookup, hk, ih, Ne.symm hk]

theorem alookup_isSome_of_mem {l : List (String × ℚ)} {j : String}
    (h : j ∈ l.map Prod.fst) : ∃ v, alookup l j = some v := by
  cases hl : alookup l j with
  | none => exact absurd h (alookup_eq_none_iff.mp hl)
  | some v => exact ⟨v, rfl⟩

theorem nthQ_ok_of_lt {l : List ℚ} {i : Nat} (h : i < l.length) :
    ∃ v, nthQ l i = Except.ok v := by
  cases hx : l[i]? with
  | none =>
    rw [List.getElem?_eq_none_iff] at hx
    omega
  | some v => exact ⟨v, by simp [nthQ, hx]⟩

theorem nthQ_ok_getElem {l : List ℚ} {i : Nat} {v : ℚ}
    (h : nthQ l i = Except.ok v) : l[i]? = some v := by
  cases hx : l[i]? with
  | none => simp [nthQ, hx] at h
  | some w =>
    simp [nthQ, hx] at h
    rw [h]

theorem lastDigitD_of_ok {j : String} {d : Nat} (h : lastDigit j = Except.ok d) :
    lastDigitD j = d := by
  simp [lastDigitD, h]

theorem validJointName_lastDigit {j : String} (h : validJointName j = true) :
    ∃ d, lastDigit j = Except.ok d ∧ d < 7 := by
  unfold validJointName at h
  cases hc : j.toList.getLast? with
  | none => rw [hc] at h; cases h
  | some c =>
    rw [hc] at h
    simp only [Bool.and_eq_true, decide_eq_true_eq] at h
    refine ⟨c.toNat - 48, ?_, h.2⟩
    unfold lastDigit
    rw [hc]
    simp [h.1]

theorem dictLookup_none {jpos : List (String × ℚ)} {j : String}
    (h : alookup jpos j = none) :
    dictLookup jpos j = Except.error (PyError.keyError j) := by
  simp [dictLookup, h]

theorem dictLookup_some {jpos : List (String × ℚ)} {j : String} {v : ℚ}
    (h : alookup jpos j = some v) : dictLookup jpos j = Except.ok v := by
  simp [dictLookup, h]

theorem dictLookup_ok_alookup {jpos : List (String × ℚ)} {j : String} {v : ℚ}
    (h : dictLookup jpos j = Except.ok v) : alookup jpos j = some v := by
  unfold dictLookup at h
  cases hl : alookup jpos j with
  | none => rw [hl] at h; exact Except.noConfusion h
  | some w =>
    rw [hl] at h
    cases h
    rfl

theorem buildJointCommands_ok_keys {clipped : List ℚ} :
    ∀ {used : List String} {i : Nat} {jc : List (String × ℚ)},
    buildJointCommands clipped used i = Except.ok jc → jc.map Prod.fst = used := by
  intro used
  induction used with
  | nil =>
    intro i jc h
    cases h
    rfl
  | cons j rest ih =>
    intro i jc h
    unfold buildJointCommands at h
    cases hx : clipped[i]? with
    | none => rw [hx] at h; exact Except.noConfusion h
    | some v =>
      simp only [hx] at h
      cases hr : buildJointCommands clipped rest (i + 1) with
      | error e => rw [hr] at h; exact Except.noConfusion h
      | ok t =>
        rw [hr, exceptMap_ok] at h
        cases h
        simp [ih hr]

theorem buildJointCommands_ok_of_le {clipped : List ℚ} :
    ∀ {used : List String} {i : Nat}, i + used.length ≤ clipped.length →
    ∃ jc, buildJointCommands clipped used i = Except.ok jc := by
  intro used
  induction used with
  | nil => exact fun _ => ⟨[], rfl⟩
  | cons j rest ih =>
    intro i h
    have hi : i < clipped.length := by
      simp only [List.length_cons] at h
      omega
    cases hx : clipped[i]? with
    | none =>
      rw [List.getElem?_eq_none_iff] at hx
      omega
    | some v =>
      obtain ⟨t, ht⟩ := ih (i := i + 1) (by simp only [List.length_cons] at h; omega)
      exact ⟨(j, v) :: t, by simp [buildJointCommands, hx, ht, exceptMap_ok]⟩

theorem alookup_mem_of_some {l : List (String × ℚ)} {j : String} {v : ℚ}
    (h : alookup l j = some v) : j ∈ l.map Prod.fst := by
  by_contra hn
  rw [← alookup_eq_none_iff] at hn
  rw [h] at hn
  exact Option.noConfusion hn

theorem sendIncrementalGo_ok {jpos : List (String × ℚ)} :
    ∀ {angles out : List (String × ℚ)},
    sendIncrementalGo jpos angles = Except.ok out →
    out = angles.map (posTarget jpos) := by
  intro angles
  induction angles with
  | nil =>
    intro out h
    cases h
    rfl
  | cons jp rest ih =>
    intro out h
    obtain ⟨j, p⟩ := jp
    unfold sendIncrementalGo at h
    obtain ⟨d, hd, h⟩ := exceptBind_ok h
    obtain ⟨v, hv, h⟩ := exceptBind_ok h
    obtain ⟨lo, hlo, h⟩ := exceptBind_ok h
    obtain ⟨hi, hhi, h⟩ := exceptBind_ok h
    obtain ⟨t, ht, h⟩ := exceptBind_ok h
    cases h
    have h1 : (alookup jpos j).getD 0 = v := by rw [dictLookup_ok_alookup hv]; rfl
    have h2 := lastDigitD_of_ok hd
    have h3 := nthQ_ok_getElem hlo
    have h4 := nthQ_ok_getElem hhi
    simp [posTarget, h1, h2, h3, h4, ih ht]

theorem sendIncrementalGo_ok_mem {jpos : List (String × ℚ)} :
    ∀ {angles out : List (String × ℚ)},
    sendIncrementalGo jpos angles = Except.ok out →
    ∀ jp ∈ angles, jp.1 ∈ jpos.map Prod.fst := by
  intro angles
  induction angles with
  | nil =>
    intro out _ jp hjp
    cases hjp
  | cons hd0 rest ih =>
    intro out h jp hjp
    obtain ⟨j, p⟩ := hd0
    unfold sendIncrementalGo at h
    obtain ⟨d, hd, h⟩ := exceptBind_ok h
    obtain ⟨v, hv, h⟩ := exceptBind_ok h
    obtain ⟨lo, hlo, h⟩ := exceptBind_ok h
    obtain ⟨hi, hhi, h⟩ := exceptBind_ok h
    obtain ⟨t, ht, h⟩ := exceptBind_ok h
    rcases List.mem_cons.mp hjp with h0 | h0
    · subst h0
      exact alookup_mem_of_some (dictLookup_ok_alookup hv)
    · exact ih ht jp h0

theorem sendIncrementalGo_missing {jpos : List (String × ℚ)} :
    ∀ {angles : List (String × ℚ)},
    (∀ jp ∈ angles, validJointName jp.1 = true) →
    (∃ jp ∈ angles, alookup jpos jp.1 = none) →
    ∃ j, j ∈ angles.map Prod.fst ∧ alookup jpos j = none ∧
      sendIncrementalGo jpos angles = Except.error (PyError.keyError j) := by
  intro angles
  induction angles with
  | nil =>
    intro _ hmiss
    rcases hmiss with ⟨jp, hjp, _⟩
    cases hjp
  | cons hd0 rest ih =>
    intro hv hmiss
    obtain ⟨j, p⟩ := hd0
    obtain ⟨d, hd, hd7⟩ :=
      validJointName_lastDigit (hv (j, p) (List.mem_cons_self (j, p) rest))
    by_cases halk : alookup jpos j = none
    · refine ⟨j, by simp, halk, ?_⟩
      unfold sendIncrementalGo
      simp only [hd, exceptBind_ok_left, dictLookup_none halk, exceptBind_error_left]
    · obtain ⟨v, hv2⟩ := Option.ne_none_iff_exists.mp halk
      obtain ⟨lo, hlo⟩ := nthQ_ok_of_lt (show d < jointPositionSpaceLow.length by
        simp [jointPositionSpaceLow]
        omega)
      obtain ⟨hi, hhi⟩ := nthQ_ok_of_lt (show d < jointPositionSpaceHigh.length by
        simp [jointPositionSpaceHigh]
        omega)
      have hmiss2 : ∃ jp ∈ rest, alookup jpos jp.1 = none := by
        rcases hmiss with ⟨jp, hjp, hnone⟩
        rcases List.mem_cons.mp hjp with h0 | h0
        · subst h0
          exact absurd hnone halk
        · exact ⟨jp, h0, hnone⟩
      obtain ⟨j2, hj2mem, hj2none, herr⟩ :=
        ih (fun jp hjp => hv jp (List.mem_cons_of_mem (j, p) hjp)) hmiss2
      refine ⟨j2, by simp [hj2mem], hj2none, ?_⟩
      unfold sendIncrementalGo
      simp only [hd, exceptBind_ok_left, dictLookup_some hv2.symm, hlo, hhi, herr,
        exceptBind_error_left]

theorem sendCommand_position_decomp (s : Sawyer) (limb : LimbState)
    (cmds clipped : List ℚ) (jc : List (String × ℚ)) (tr : List Cmd)
    (hm : s.control_mode = "position")
    (hclip : npClip cmds positionModeBox.low positionModeBox.high = Except.ok clipped)
    (hjc : buildJointCommands clipped s.used_joints 0 = Except.ok jc)
    (h : sendCommand s limb cmds = Except.ok tr) :
    ∃ out, sendIncrementalGo jc limb.joint_angles = Except.ok out ∧
      tr = [Cmd.setJointPositions out] := by
  unfold sendCommand at h
  obtain ⟨asp, hasp, h⟩ := exceptBind_ok h
  have hbox := actionSpace_position_ok hm hasp
  subst hbox
  obtain ⟨cl, hcl, h⟩ := exceptBind_ok h
  rw [hclip] at hcl
  injection hcl with hcl2
  subst hcl2
  obtain ⟨jc2, hjc2, h⟩ := exceptBind_ok h
  rw [hjc] at hjc2
  injection hjc2 with hjc3
  subst hjc3
  split at h
  · obtain ⟨out, hout, h2⟩ := exceptBind_ok h
    cases h2
    exact ⟨out, hout, rfl⟩
  · rename_i hfalse
    exact absurd hm hfalse

theorem lastDigit_rj0 : lastDigit "right_j0" = Except.ok 0 := by decide

theorem lastDigit_rj1 : lastDigit "right_j1" = Except.ok 1 := by decide

theorem buildRobotState_spec :
    ∀ (l : List (String × ℚ)) (rs : RobotState),
    buildRobotState l rs = ⟨rs.name ++ l.map Prod.fst, rs.position ++ l.map Prod.snd⟩ := by
  intro l
  induction l with
  | nil =>
    intro rs
    simp [buildRobotState]
  | cons jp rest ih =>
    intro rs
    obtain ⟨j, a⟩ := jp
    simp [buildRobotState, ih]

/-- Claim C2 (code_bug evidence): in velocity and effort mode the
`action_space` property raises `UnboundLocalError` on its first loop
iteration — the accumulators `lower_bounds` / `upper_bounds` are referenced
before any assignment — instead of returning the documented
`±0.1 × velocity limit` (resp. `± effort limit`) bounds; in position mode
it does return the static `[-0.02, 0.02]` box. -/
theorem spec_c2_action_space_bug :
    actionSpace exampleVelSawyer = Except.error (PyError.unboundLocalError "lower_bounds") ∧
    actionSpace exampleEffSawyer = Except.error (PyError.unboundLocalError "lower_bounds") ∧
    actionSpace examplePosSawyer = Except.ok positionModeBox :=
  ⟨rfl, rfl, rfl⟩

/-- Claim C3: constructing an adapter with a control mode outside
{position, velocity, effort} succeeds (the constructor stores the mode
unvalidated), and the first `action_space` request raises a `ValueError`
naming the mode — provided the controlled-joint set is non-empty and its
joints appear in the hardware limits message. -/
theorem spec_c3_unknown_mode_lazy (init : List (String × ℚ)) (group mode : String)
    (lim : JointLimitsMsg)
    (h1 : mode ≠ "position") (h2 : mode ≠ "velocity") (h3 : mode ≠ "effort")
    (hne : init ≠ [])
    (hmem : ∀ jp ∈ init, jp.1 ∈ lim.joint_names) :
    (Sawyer.mk0 init group mode lim).control_mode = mode ∧
    actionSpace (Sawyer.mk0 init group mode lim) =
      Except.error (PyError.valueError ("Control mode " ++ mode ++ " is not known!")) := by
  refine ⟨rfl, ?_⟩
  obtain ⟨jp, rest, hcons⟩ := List.exists_cons_of_ne_nil hne
  obtain ⟨k, hk⟩ :=
    pyListIndex_of_mem (hmem jp (by rw [hcons]; exact List.mem_cons_self jp rest))
  unfold actionSpace Sawyer.mk0
  simp [hcons, actionSpaceGo, hk, h1, h2, h3]

/-- Claim C3 witness at the concrete mode "torque". -/
theorem spec_c3_witness :
    exampleBadSawyer.control_mode = "torque" ∧
    actionSpace exampleBadSawyer =
      Except.error (PyError.valueError "Control mode torque is not known!") :=
  spec_c3_unknown_mode_lazy [("right_j0", 0)] "right_arm" "torque" exampleLimits
    (by decide) (by decide) (by decide) (by decide) (by decide)

/-- Claim C4 (counterexample): with one controlled joint but a limb that
reports two joints, the observation has length 25 = 19 + 3·2, not
19 + 3·1 = 22 as the claim computes from the controlled-joint count. -/
theorem spec_c4_counterexample :
    examplePosSawyer.used_joints.length = 1 ∧
    (getObservation exampleLimb2).length = 25 ∧
    (25 : Nat) ≠ 19 + 3 * 1 :=
  ⟨rfl, rfl, by decide⟩

/-- Claim C4 (amended): the observation is the fixed-order concatenation
gripper position (3), orientation (4), linear velocity (3), angular
velocity (3), force (3), torque (3), then joint angles, joint velocities
and joint efforts of the joints the LIMB reports; its length is 19 + 3·M
where M is the limb-reported joint count (which equals the controlled
count only when the limb reports exactly the controlled joints). -/
theorem spec_c4_amended_observation (limb : LimbState) (m : Nat)
    (h1 : limb.joint_angles.length = m)
    (h2 : limb.joint_velocities.length = m)
    (h3 : limb.joint_efforts.length = m) :
    (getObservation limb).length = 19 + 3 * m ∧
    (getObservation limb).take 19 =
      limb.endpoint_pose.position.toList ++ limb.endpoint_pose.orientation.toList ++
      limb.endpoint_velocity.linear.toList ++ limb.endpoint_velocity.angular.toList ++
      limb.endpoint_effort.force.toList ++ limb.endpoint_effort.torque.toList ∧
    (getObservation limb).drop 19 =
      limb.joint_angles.map Prod.snd ++ limb.joint_velocities.map Prod.snd ++
      limb.joint_efforts.map Prod.snd := by
  have hx : getObservation limb =
      (limb.endpoint_pose.position.toList ++ limb.endpoint_pose.orientation.toList ++
       limb.endpoint_velocity.linear.toList ++ limb.endpoint_velocity.angular.toList ++
       limb.endpoint_effort.force.toList ++ limb.endpoint_effort.torque.toList) ++
      (limb.joint_angles.map Prod.snd ++ limb.joint_velocities.map Prod.snd ++
       limb.joint_efforts.map Prod.snd) := by
    simp [getObservation, List.append_assoc]
  have hlen : (limb.endpoint_pose.position.toList ++ limb.endpoint_pose.orientation.toList ++
      limb.endpoint_velocity.linear.toList ++ limb.endpoint_velocity.angular.toList ++
      limb.endpoint_effort.force.toList ++ limb.endpoint_effort.torque.toList).length = 19 := by
    simp [Point3.toList, Quat.toList]
  refine ⟨?_, ?_, ?_⟩
  · rw [hx]
    simp only [List.length_append, List.length_map, hlen, h1, h2, h3]
    omega
  · rw [hx, ← hlen, List.take_left]
  · rw [hx, ← hlen, List.drop_left]

/-- Claim C4 witness at the two-joint limb snapshot. -/
theorem spec_c4_witness :
    (getObservation exampleLimb2).length = 19 + 3 * 2 ∧
    (getObservation exampleLimb2).take 19 =
      exampleLimb2.endpoint_pose.position.toList ++
      exampleLimb2.endpoint_pose.orientation.toList ++
      exampleLimb2.endpoint_velocity.linear.toList ++
      exampleLimb2.endpoint_velocity.angular.toList ++
      exampleLimb2.endpoint_effort.force.toList ++
      exampleLimb2.endpoint_effort.torque.toList ∧
    (getObservation exampleLimb2).drop 19 =
      exampleLimb2.joint_angles.map Prod.snd ++
      exampleLimb2.joint_velocities.map Prod.snd ++
      exampleLimb2.joint_efforts.map Prod.snd :=
  spec_c4_amended_observation exampleLimb2 2 rfl rfl rfl

/-- Claim C5 (code_bug evidence): in velocity and effort mode
`send_command` computes `action_space` first, which raises
`UnboundLocalError` before any clipping or any SDK velocity/torque write
can happen, so the documented clip-then-pass-through behaviour is
unreachable. -/
theorem spec_c5_send_command_bug :
    sendCommand exampleVelSawyer exampleLimb [1/10] =
      Except.error (PyError.unboundLocalError "lower_bounds") ∧
    sendCommand exampleEffSawyer exampleLimb [1/10] =
      Except.error (PyError.unboundLocalError "lower_bounds") :=
  ⟨rfl, rfl⟩

/-- Claim C6: `safety_check` and `safety_predict` package the joint names
and positions (current limb angles, resp. the hypothetical map) into a
robot-state request, query the validity service with the configured
planning group, and return exactly the service's boolean verdict, for
every possible service behaviour — no local safety logic exists. -/
theorem spec_c6_safety_delegation (sv : RobotState → String → ValidityResult)
    (s : Sawyer) (limb : LimbState) (ja : List (String × ℚ)) :
    safetyCheck sv s limb =
      (sv ⟨limb.joint_angles.map Prod.fst, limb.joint_angles.map Prod.snd⟩
        s.moveit_group).valid ∧
    safetyPredict sv s ja =
      (sv ⟨ja.map Prod.fst, ja.map Prod.snd⟩ s.moveit_group).valid := by
  constructor
  · simp [safetyCheck, buildRobotState_spec]
  · simp [safetyPredict, buildRobotState_spec]

/-- Claim C7: when ROS reports shutdown, `reset` returns without issuing
any command (empty trace, no error); otherwise it commands the arm to the
stored initial joint configuration (with the 5-second timeout), opens the
gripper and sleeps 0.01 s. -/
theorem spec_c7_reset_shutdown (s : Sawyer) :
    reset s true = [] ∧
    reset s false =
      [Cmd.moveToJointPositions s.initial_joint_pos (some 5), Cmd.gripperOpen,
       Cmd.rosSleep (1/100)] :=
  ⟨rfl, rfl⟩

/-- Claim C8: no adapter operation — reset, get_observation, send_command,
safety_check, safety_predict, or any space property — mutates the adapter
state stored at construction (in particular the control mode, the
controlled-joint list and the joint-limits message): each operation
returns the adapter record unchanged. -/
theorem spec_c8_no_mutation (s : Sawyer) (b : Bool) (limb : LimbState)
    (cmds : List ℚ) (sv : RobotState → String → ValidityResult)
    (ja : List (String × ℚ)) :
    (resetFull s b).1 = s ∧ (getObservationFull s limb).1 = s ∧
    (sendCommandFull s limb cmds).1 = s ∧ (safetyCheckFull sv s limb).1 = s ∧
    (safetyPredictFull sv s ja).1 = s ∧ (actionSpaceFull s).1 = s ∧
    (observationSpaceFull s limb).1 = s ∧ (jointPositionSpaceFull s).1 = s :=
  ⟨rfl, rfl, rfl, rfl, rfl, rfl, rfl, rfl⟩

theorem sendCommand_position_eq (s : Sawyer) (limb : LimbState)
    (cmds clipped : List ℚ) (jc : List (String × ℚ))
    (hm : s.control_mode = "position")
    (hasp : actionSpace s = Except.ok positionModeBox)
    (hclip : npClip cmds positionModeBox.low positionModeBox.high = Except.ok clipped)
    (hjc : buildJointCommands clipped s.used_joints 0 = Except.ok jc) :
    sendCommand s limb cmds =
      sendIncrementalGo jc limb.joint_angles >>= fun out =>
        Except.ok [Cmd.setJointPositions out] := by
  unfold sendCommand
  simp only [hasp, exceptBind_ok_left, hclip, hjc]
  rw [if_pos hm]

/-- Claim C1 (counterexample): with current angle 0 for right_j0 and a
commanded vector whose first entry 1/2 clips to the action bound 1/50, the
position path issues the absolute target 1/50 = 0.02, whereas the claimed
formula `current + 0.1 × clipped_delta` (clipped to the static bounds)
yields 1/500 = 0.002 — the dispatched path applies no 0.1 damping. -/
theorem spec_c1_counterexample :
    sendCommand examplePosSawyer exampleLimb [1/2, 0, 0, 0, 0, 0, 0] =
      Except.ok [Cmd.setJointPositions [("right_j0", (1/50 : ℚ))]] ∧
    specClaimPositionTarget 0 (1/50)
      (jointPositionSpaceLow.getD 0 0) (jointPositionSpaceHigh.getD 0 0) = 1/500 ∧
    ((1 : ℚ)/50) ≠ 1/500 := by
  refine ⟨?_, ?_, ?_⟩
  · norm_num +decide [sendCommand, actionSpace, actionSpaceGo, examplePosSawyer,
      exampleLimb, exampleLimits, Sawyer.mk0, pyListIndex, npClip, clipQ, maxQ, minQ,
      buildJointCommands, sendIncrementalGo, dictLookup, alookup, lastDigit_rj0, nthQ,
      jointPositionSpaceLow, jointPositionSpaceHigh, positionModeBox, List.replicate,
      List.zip, List.zipWith, exceptBind_ok_left, exceptBind_error_left, exceptMap_ok]
  · norm_num [specClaimPositionTarget, clipQ, minQ, maxQ, jointPositionSpaceLow,
      jointPositionSpaceHigh, List.getD]
  · norm_num

/-- Claim C1 (amended): in position mode, whenever `send_command` succeeds
the single issued absolute position command targets, for every joint the
limb reports, `clip(current + clipped_delta, static_low, static_high)` —
the action-space-clipped delta is added to the current angle WITHOUT any
0.1 damping factor, then clipped to the static per-joint bounds. -/
theorem spec_c1_amended_no_damping (s : Sawyer) (limb : LimbState)
    (cmds clipped : List ℚ) (jc : List (String × ℚ)) (tr : List Cmd)
    (hm : s.control_mode = "position")
    (hclip : npClip cmds positionModeBox.low positionModeBox.high = Except.ok clipped)
    (hjc : buildJointCommands clipped s.used_joints 0 = Except.ok jc)
    (h : sendCommand s limb cmds = Except.ok tr) :
    tr = [Cmd.setJointPositions (limb.joint_angles.map (posTarget jc))] := by
  obtain ⟨out, hout, htr⟩ :=
    sendCommand_position_decomp s limb cmds clipped jc tr hm hclip hjc h
  rw [htr, sendIncrementalGo_ok hout]

/-- Claim C1 witness: the amended statement evaluated at the
counterexample input. -/
theorem spec_c1_witness :
    [Cmd.setJointPositions [("right_j0", (1/50 : ℚ))]] =
      [Cmd.setJointPositions
        (exampleLimb.joint_angles.map (posTarget [("right_j0", (1/50 : ℚ))]))] :=
  spec_c1_amended_no_damping examplePosSawyer exampleLimb [1/2, 0, 0, 0, 0, 0, 0]
    [1/50, 0, 0, 0, 0, 0, 0] [("right_j0", (1/50 : ℚ))]
    [Cmd.setJointPositions [("right_j0", (1/50 : ℚ))]]
    rfl
    (by norm_num [npClip, positionModeBox, clipQ, maxQ, minQ, List.replicate,
      List.zip, List.zipWith])
    (by simp [buildJointCommands, examplePosSawyer, exampleLimits, Sawyer.mk0,
      exceptMap_ok])
    (by norm_num +decide [sendCommand, actionSpace, actionSpaceGo, examplePosSawyer,
      exampleLimb, exampleLimits, Sawyer.mk0, pyListIndex, npClip, clipQ, maxQ, minQ,
      buildJointCommands, sendIncrementalGo, dictLookup, alookup, lastDigit_rj0, nthQ,
      jointPositionSpaceLow, jointPositionSpaceHigh, positionModeBox, List.replicate,
      List.zip, List.zipWith, exceptBind_ok_left, exceptBind_error_left, exceptMap_ok])

/-- Claim C9: whatever the control mode and the input vector, a successful
`send_command` run issues only joint-level position, velocity or torque
writes — never a gripper command (the gripper write in the source is
commented out). -/
theorem spec_c9_no_gripper (s : Sawyer) (limb : LimbState) (cmds : List ℚ)
    (tr : List Cmd) (h : sendCommand s limb cmds = Except.ok tr) :
    ∀ c ∈ tr, isGripperCmd c = false := by
  unfold sendCommand at h
  obtain ⟨asp, hasp, h⟩ := exceptBind_ok h
  obtain ⟨cl, hcl, h⟩ := exceptBind_ok h
  obtain ⟨jc, hjc, h⟩ := exceptBind_ok h
  split at h
  · obtain ⟨out, hout, h2⟩ := exceptBind_ok h
    cases h2
    intro c hc
    simp only [List.mem_singleton] at hc
    subst hc
    rfl
  · split at h
    · cases h
      intro c hc
      simp only [List.mem_singleton] at hc
      subst hc
      rfl
    · split at h
      · cases h
        intro c hc
        simp only [List.mem_singleton] at hc
        subst hc
        rfl
      · cases h
        intro c hc
        cases hc

/-- Claim C9 witness: a successful position-mode run issues only the
joint-position write. -/
theorem spec_c9_witness :
    isGripperCmd (Cmd.setJointPositions [("right_j0", (1/50 : ℚ))]) = false :=
  spec_c9_no_gripper examplePosSawyer exampleLimb [1/2, 0, 0, 0, 0, 0, 0]
    [Cmd.setJointPositions [("right_j0", (1/50 : ℚ))]]
    (by norm_num +decide [sendCommand, actionSpace, actionSpaceGo, examplePosSawyer,
      exampleLimb, exampleLimits, Sawyer.mk0, pyListIndex, npClip, clipQ, maxQ, minQ,
      buildJointCommands, sendIncrementalGo, dictLookup, alookup, lastDigit_rj0, nthQ,
      jointPositionSpaceLow, jointPositionSpaceHigh, positionModeBox, List.replicate,
      List.zip, List.zipWith, exceptBind_ok_left, exceptBind_error_left, exceptMap_ok])
    (Cmd.setJointPositions [("right_j0", (1/50 : ℚ))])
    (List.mem_singleton_self (Cmd.setJointPositions [("right_j0", (1/50 : ℚ))]))

/-- Claim C10: the position path iterates over the joints the limb reports
(not over the controlled set) and looks each up in the commanded-delta
map.  For Sawyer-style joint names and a well-formed 7-entry command: if
some limb joint is missing from the controlled set, `send_command` raises
`KeyError` for a limb joint outside the controlled set — the error result
means no position command was issued — and conversely a successful run
requires every limb-reported joint to be among the controlled joints. -/
theorem spec_c10_limb_iteration (s : Sawyer) (limb : LimbState) (cmds : List ℚ)
    (hm : s.control_mode = "position")
    (hlen : cmds.length = 7)
    (hlu : s.used_joints.length ≤ 7)
    (hne : s.used_joints ≠ [])
    (hmem : ∀ j ∈ s.used_joints, j ∈ s.joint_limits.joint_names)
    (hv : ∀ jp ∈ limb.joint_angles, validJointName jp.1 = true) :
    ((∃ jp ∈ limb.joint_angles, jp.1 ∉ s.used_joints) →
      ∃ j, j ∈ limb.joint_angles.map Prod.fst ∧ j ∉ s.used_joints ∧
        sendCommand s limb cmds = Except.error (PyError.keyError j)) ∧
    (∀ tr, sendCommand s limb cmds = Except.ok tr →
      ∀ jp ∈ limb.joint_angles, jp.1 ∈ s.used_joints) := by
  have hasp : actionSpace s = Except.ok positionModeBox :=
    actionSpace_position hm hne hmem
  have hc7 : cmds.length = positionModeBox.low.length := by
    simp [positionModeBox, hlen]
  have hcl : npClip cmds positionModeBox.low positionModeBox.high =
      Except.ok (List.zipWith (fun x lh => clipQ x lh.1 lh.2) cmds
        (positionModeBox.low.zip positionModeBox.high)) := by
    unfold npClip
    rw [if_pos hc7]
  have hcllen : (List.zipWith (fun x lh => clipQ x lh.1 lh.2) cmds
      (positionModeBox.low.zip positionModeBox.high)).length = 7 := by
    simp [List.length_zipWith, List.length_zip, positionModeBox, hlen]
  obtain ⟨jc, hjc⟩ := buildJointCommands_ok_of_le
    (show 0 + s.used_joints.length ≤ (List.zipWith (fun x lh => clipQ x lh.1 lh.2) cmds
      (positionModeBox.low.zip positionModeBox.high)).length by rw [hcllen]; omega)
  have hkeys : jc.map Prod.fst = s.used_joints := buildJointCommands_ok_keys hjc
  have hsc := sendCommand_position_eq s limb cmds _ jc hm hasp hcl hjc
  constructor
  · rintro ⟨jp0, hjp0mem, hjp0not⟩
    have hmiss : ∃ jp ∈ limb.joint_angles, alookup jc jp.1 = none :=
      ⟨jp0, hjp0mem, alookup_eq_none_iff.mpr (by rw [hkeys]; exact hjp0not)⟩
    obtain ⟨j, hjmem, hjnone, herr⟩ := sendIncrementalGo_missing hv hmiss
    refine ⟨j, hjmem, ?_, ?_⟩
    · have hnotkeys : j ∉ jc.map Prod.fst := alookup_eq_none_iff.mp hjnone
      rw [hkeys] at hnotkeys
      exact hnotkeys
    · rw [hsc, herr, exceptBind_error_left]
  · intro tr htr jp hjpmem
    rw [hsc] at htr
    obtain ⟨out, hout, _⟩ := exceptBind_ok htr
    have hjpin := sendIncrementalGo_ok_mem hout jp hjpmem
    rw [hkeys] at hjpin
    exact hjpin

/-- Claim C10 witness: limb reports right_j0 and right_j1, only right_j0
is controlled; the run aborts with `KeyError` on a limb joint outside the
controlled set. -/
theorem spec_c10_witness :
    ∃ j, j ∈ exampleLimb2.joint_angles.map Prod.fst ∧
      j ∉ examplePosSawyer.used_joints ∧
      sendCommand examplePosSawyer exampleLimb2 [0, 0, 0, 0, 0, 0, 0] =
        Except.error (PyError.keyError j) :=
  (spec_c10_limb_iteration examplePosSawyer exampleLimb2 [0, 0, 0, 0, 0, 0, 0]
      rfl rfl (by decide) (by decide) (by decide) (by decide)).1
    ⟨("right_j1", 0), by simp [exampleLimb2], by decide⟩
